import Mathlib

/-!
Verification of the `non_strict` lazy-evaluation library.

The development shallowly embeds `src/thunk.rs` and `src/back_door.rs`:

* `ThunkEnum T` is the computation slot (`Empty` / `Function` / `Value`);
  one-shot computations `FnOnce() -> T` are embedded as `Unit → T`.
* `ThunkCell T` and `ThunkMut T` each own one slot.  Rust's in-place
  mutation becomes explicit state passing: an operation returns the new
  cell.  Operations that can invoke the stored computation additionally
  return a `Nat` counting how many times the computation was invoked
  during that operation (the Rust side effect made observable).
* Panics (`panic!` / `.expect`) are embedded as `Except.error` carrying
  the panic message; code with no panic path returns plainly.
-/

/-- Computation slot of `thunk.rs` (`ThunkEnum<T, F>`): no computation,
a pending one-shot computation, or a cached value. -/
inductive ThunkEnum (T : Type) where
  | Empty : ThunkEnum T
  | Function : (Unit → T) → ThunkEnum T
  | Value : T → ThunkEnum T
deriving Inhabited

/-- `ThunkEnum::into_value`: `None` on `Empty`, runs the computation on
`Function`, returns the cached value on `Value`.  The `Nat` counts
computation invocations. -/
def ThunkEnum.into_value {T : Type} : ThunkEnum T → Option (T × Nat)
  | ThunkEnum.Empty => none
  | ThunkEnum.Function f => some (f (), 1)
  | ThunkEnum.Value x => some (x, 0)

/-- `ThunkCell<T, F>`: the shared-access deferred cell.  The
`UnsafeCell` wrapper is internal mutability only; the state is the
slot. -/
structure ThunkCell (T : Type) where
  inner : ThunkEnum T

/-- `ThunkMut<T, F>`: the exclusive-access deferred cell. -/
structure ThunkMut (T : Type) where
  inner : ThunkEnum T

/-- `ThunkCell::new`: wrap a computation, still pending. -/
def ThunkCell.new {T : Type} (func : Unit → T) : ThunkCell T :=
  ThunkCell.mk (ThunkEnum.Function func)

/-- `ThunkCell::value`: wrap an already-computed value. -/
def ThunkCell.value {T : Type} (v : T) : ThunkCell T :=
  ThunkCell.mk (ThunkEnum.Value v)

/-- `ThunkCell::promote`: build a cell from a slot; refuse `Empty`. -/
def ThunkCell.promote {T : Type} : ThunkEnum T → Option (ThunkCell T)
  | ThunkEnum.Empty => none
  | option => some (ThunkCell.mk option)

/-- `ThunkCell::evaluate`: if the slot holds a pending computation, swap
it out (through a transient `Empty`), run it, and store the result;
otherwise leave the slot untouched.  Returns the new cell and the number
of computation invocations. -/
def ThunkCell.evaluate {T : Type} (c : ThunkCell T) : ThunkCell T × Nat :=
  match c.inner with
  | ThunkEnum.Function f => (ThunkCell.mk (ThunkEnum.Value (f ())), 1)
  | _ => (c, 0)

/-- `Deref for ThunkCell`: force, then read the cached value; a slot
still not `Value` afterwards (only possible for `Empty`) panics. -/
def ThunkCell.deref {T : Type} (c : ThunkCell T) :
    Except String (ThunkCell T × T × Nat) :=
  let ev := c.evaluate
  match ev.fst.inner with
  | ThunkEnum.Value v => Except.ok (ev.fst, v, ev.snd)
  | _ => Except.error "Deref on empty ThunkCell"

/-- `DerefMut for ThunkCell`: same forcing and read as `deref`, behind
an exclusive reference to the cell. -/
def ThunkCell.deref_mut {T : Type} (c : ThunkCell T) :
    Except String (ThunkCell T × T × Nat) :=
  let ev := c.evaluate
  match ev.fst.inner with
  | ThunkEnum.Value v => Except.ok (ev.fst, v, ev.snd)
  | _ => Except.error "Deref on empty ThunkCell"

/-- `Into<T> for ThunkCell`: consume the cell, running the computation
if still pending; panic on `Empty`. -/
def ThunkCell.into {T : Type} (c : ThunkCell T) : Except String (T × Nat) :=
  match c.inner with
  | ThunkEnum.Function f => Except.ok (f (), 1)
  | ThunkEnum.Value v => Except.ok (v, 0)
  | ThunkEnum.Empty => Except.error "Unwrapped empty ThunkCell"

/-- `ThunkMut::new`. -/
def ThunkMut.new {T : Type} (func : Unit → T) : ThunkMut T :=
  ThunkMut.mk (ThunkEnum.Function func)

/-- `ThunkMut::value`. -/
def ThunkMut.value {T : Type} (v : T) : ThunkMut T :=
  ThunkMut.mk (ThunkEnum.Value v)

/-- `ThunkMut::promote`. -/
def ThunkMut.promote {T : Type} : ThunkEnum T → Option (ThunkMut T)
  | ThunkEnum.Empty => none
  | option => some (ThunkMut.mk option)

/-- `ThunkMut::evaluate`: swap the slot with `Empty` into a local
`dance`, run the computation if one was pending, and write the result
(or the unchanged non-function slot) back. -/
def ThunkMut.evaluate {T : Type} (m : ThunkMut T) : ThunkMut T × Nat :=
  let dance := m.inner
  match dance with
  | ThunkEnum.Function f => (ThunkMut.mk (ThunkEnum.Value (f ())), 1)
  | v => (ThunkMut.mk v, 0)

/-- `Into<T> for ThunkMut`. -/
def ThunkMut.into {T : Type} (m : ThunkMut T) : Except String (T × Nat) :=
  match m.inner with
  | ThunkEnum.Function f => Except.ok (f (), 1)
  | ThunkEnum.Value v => Except.ok (v, 0)
  | ThunkEnum.Empty => Except.error "Unwrapped empty ThunkMut"

/-- `From<ThunkMut> for ThunkCell`: move the slot verbatim. -/
def ThunkCell.from_mut {T : Type} (as_mut : ThunkMut T) : ThunkCell T :=
  ThunkCell.mk as_mut.inner

/-- `From<ThunkCell> for ThunkMut`: move the slot verbatim. -/
def ThunkMut.from_cell {T : Type} (as_cell : ThunkCell T) : ThunkMut T :=
  ThunkMut.mk as_cell.inner

/-- Forcing a shared-access cell `n` times in sequence, summing the
computation invocations. -/
def ThunkCell.evaluateN {T : Type} (c : ThunkCell T) : Nat → ThunkCell T × Nat
  | 0 => (c, 0)
  | Nat.succ n =>
      let e1 := c.evaluate
      let e2 := e1.fst.evaluateN n
      (e2.fst, e1.snd + e2.snd)

/-- Forcing an exclusive-access cell `n` times in sequence. -/
def ThunkMut.evaluateN {T : Type} (m : ThunkMut T) : Nat → ThunkMut T × Nat
  | 0 => (m, 0)
  | Nat.succ n =>
      let e1 := m.evaluate
      let e2 := e1.fst.evaluateN n
      (e2.fst, e1.snd + e2.snd)

/-- Boolean success test for embedded fallible operations. -/
def exceptOk {E A : Type} : Except E A → Bool
  | Except.ok _ => true
  | Except.error _ => false

/-- One externally available operation on a cell, acting on its slot.
Conversions let a single trace move between the two flavors. -/
inductive CellOp where
  | evalCell : CellOp
  | evalMut : CellOp
  | derefCell : CellOp
  | derefMutCell : CellOp
  | toMut : CellOp
  | toCell : CellOp

/-- Effect of one operation on the slot.  A failing dereference is a
panic, so the slot it leaves behind is never observed; the trace keeps
the slot as it was. -/
def applyCellOp {T : Type} (s : ThunkEnum T) : CellOp → ThunkEnum T
  | CellOp.evalCell => ((ThunkCell.mk s).evaluate).fst.inner
  | CellOp.evalMut => ((ThunkMut.mk s).evaluate).fst.inner
  | CellOp.derefCell =>
      match (ThunkCell.mk s).deref with
      | Except.ok r => r.fst.inner
      | Except.error _ => s
  | CellOp.derefMutCell =>
      match (ThunkCell.mk s).deref_mut with
      | Except.ok r => r.fst.inner
      | Except.error _ => s
  | CellOp.toMut => (ThunkMut.from_cell (ThunkCell.mk s)).inner
  | CellOp.toCell => (ThunkCell.from_mut (ThunkMut.mk s)).inner

/-- Slot after a whole sequence of cell operations. -/
def applyCellOps {T : Type} (s : ThunkEnum T) : List CellOp → ThunkEnum T
  | [] => s
  | op :: ops => applyCellOps (applyCellOp s op) ops

/-- `BackDoorBase<T, R, F>` of `back_door.rs`: the live (value,
callback) pair of a finalizer. -/
structure BackDoorBase (T R : Type) where
  thing : T
  call_back : T → R

/-- `BackDoorBase::into_result`: invoke the callback on the value.
The `Nat` counts callback invocations. -/
def BackDoorBase.into_result {T R : Type} (b : BackDoorBase T R) : R × Nat :=
  (b.call_back b.thing, 1)

/-- `BackDoor<T, R, F>`: a finalizer; `none` means the pair was taken. -/
structure BackDoor (T R : Type) where
  inner : Option (BackDoorBase T R)

/-- `bd_expect`: unwrap, panicking when the pair is gone. -/
def bd_expect {V : Type} : Option V → Except String V
  | some x => Except.ok x
  | none => Except.error "Consumed invalid BackDoor object"

/-- `BackDoor::new`: store the pair, not yet consumed. -/
def BackDoor.new {T R : Type} (thing : T) (call_back : T → R) : BackDoor T R :=
  BackDoor.mk (some (BackDoorBase.mk thing call_back))

/-- `Deref for BackDoor`: read the wrapped value. -/
def BackDoor.deref {T R : Type} (b : BackDoor T R) : Except String T :=
  match bd_expect b.inner with
  | Except.ok base => Except.ok base.thing
  | Except.error e => Except.error e

/-- `DerefMut for BackDoor`: an exclusive reference to the wrapped
value; a write through it replaces the value and keeps the callback. -/
def BackDoor.deref_mut {T R : Type} (b : BackDoor T R) (w : T) :
    Except String (T × BackDoor T R) :=
  match bd_expect b.inner with
  | Except.ok base =>
      Except.ok (base.thing, BackDoor.mk (some (BackDoorBase.mk w base.call_back)))
  | Except.error e => Except.error e

/-- `BackDoor::retrieve`: `self.inner.take()` then hand back the pair
uninvoked.  Returns the pair, the taken-from state the consumed object
is dropped in, and the callback invocation count (zero). -/
def BackDoor.retrieve {T R : Type} (b : BackDoor T R) :
    Except String ((T × (T → R)) × BackDoor T R × Nat) :=
  match bd_expect b.inner with
  | Except.ok base => Except.ok ((base.thing, base.call_back), BackDoor.mk none, 0)
  | Except.error e => Except.error e

/-- `BackDoor::into_result`: `self.inner.take()` then invoke the
callback on the value. -/
def BackDoor.into_result {T R : Type} (b : BackDoor T R) :
    Except String (R × BackDoor T R × Nat) :=
  match bd_expect b.inner with
  | Except.ok base =>
      let r := base.into_result
      Except.ok (r.fst, BackDoor.mk none, r.snd)
  | Except.error e => Except.error e

/-- `Drop for BackDoor`: take the pair if still present, invoke the
callback and discard its result; a taken pair means nothing fires. -/
def BackDoor.drop {T R : Type} (b : BackDoor T R) :
    Option R × BackDoor T R × Nat :=
  match b.inner with
  | some base =>
      let r := base.into_result
      (some r.fst, BackDoor.mk none, r.snd)
  | none => (none, BackDoor.mk none, 0)

/-- A non-consuming access to a finalizer: a shared read, or a write
through the exclusive reference. -/
inductive BDOp (T : Type) where
  | readOp : BDOp T
  | writeOp : T → BDOp T

/-- Effect of one non-consuming access on the finalizer state.  A read
leaves the state alone; a failing access is a panic, so the state it
leaves is never observed. -/
def BackDoor.applyOp {T R : Type} (b : BackDoor T R) : BDOp T → BackDoor T R
  | BDOp.readOp => b
  | BDOp.writeOp w =>
      match b.deref_mut w with
      | Except.ok r => r.snd
      | Except.error _ => b

/-- Finalizer state after a sequence of non-consuming accesses. -/
def BackDoor.applyOps {T R : Type} (b : BackDoor T R) : List (BDOp T) → BackDoor T R
  | [] => b
  | op :: ops => (b.applyOp op).applyOps ops

/-- Forcing a cell already holding a cached value any number of times
leaves it unchanged and never invokes a computation. -/
theorem thunkCell_evaluateN_value {T : Type} (v : T) (n : Nat) :
    ThunkCell.evaluateN (ThunkCell.mk (ThunkEnum.Value v)) n
      = (ThunkCell.mk (ThunkEnum.Value v), 0) := by
  induction n with
  | zero => rfl
  | succ n ih => simp [ThunkCell.evaluateN, ThunkCell.evaluate, ih]

/-- Exclusive-access analogue of `thunkCell_evaluateN_value`. -/
theorem thunkMut_evaluateN_value {T : Type} (v : T) (n : Nat) :
    ThunkMut.evaluateN (ThunkMut.mk (ThunkEnum.Value v)) n
      = (ThunkMut.mk (ThunkEnum.Value v), 0) := by
  induction n with
  | zero => rfl
  | succ n ih => simp [ThunkMut.evaluateN, ThunkMut.evaluate, ih]

/-- C1: forcing moves `Pending(f)` to `Done(f())` running the
computation once, is a no-op on `Done`, forcing `n ≥ 1` times in
sequence runs the computation exactly once, and every read after the
first returns the identical cached value — for both cell flavors. -/
theorem evaluate_single_evaluation (T : Type) (f : Unit → T) (v : T) (n : Nat)
    (h : 1 ≤ n) :
    ThunkCell.evaluate (ThunkCell.mk (ThunkEnum.Function f))
      = (ThunkCell.mk (ThunkEnum.Value (f ())), 1) ∧
    ThunkCell.evaluate (ThunkCell.mk (ThunkEnum.Value v))
      = (ThunkCell.mk (ThunkEnum.Value v), 0) ∧
    ThunkCell.evaluateN (ThunkCell.new f) n
      = (ThunkCell.mk (ThunkEnum.Value (f ())), 1) ∧
    ThunkCell.deref (ThunkCell.mk (ThunkEnum.Value (f ())))
      = Except.ok (ThunkCell.mk (ThunkEnum.Value (f ())), f (), 0) ∧
    ThunkMut.evaluate (ThunkMut.mk (ThunkEnum.Function f))
      = (ThunkMut.mk (ThunkEnum.Value (f ())), 1) ∧
    ThunkMut.evaluate (ThunkMut.mk (ThunkEnum.Value v))
      = (ThunkMut.mk (ThunkEnum.Value v), 0) ∧
    ThunkMut.evaluateN (ThunkMut.new f) n
      = (ThunkMut.mk (ThunkEnum.Value (f ())), 1) ∧
    ThunkMut.into (ThunkMut.mk (ThunkEnum.Value (f ())))
      = Except.ok (f (), 0) := by
  obtain ⟨m, rfl⟩ : ∃ m, n = m + 1 := ⟨n - 1, by omega⟩
  refine ⟨rfl, rfl, ?_, rfl, rfl, rfl, ?_, rfl⟩ <;>
    simp [ThunkCell.evaluateN, ThunkMut.evaluateN, ThunkCell.new, ThunkMut.new,
      ThunkCell.evaluate, ThunkMut.evaluate,
      thunkCell_evaluateN_value, thunkMut_evaluateN_value]

/-- Witness for C1 at a concrete computation and `n = 3`. -/
theorem evaluate_single_evaluation_w :
    1 ≤ 3 ∧
    ThunkCell.evaluateN (ThunkCell.new (fun _ => (42 : Nat))) 3
      = (ThunkCell.mk (ThunkEnum.Value 42), 1) :=
  ⟨by decide,
    (evaluate_single_evaluation Nat (fun _ => (42 : Nat)) 0 3 (by decide)).2.2.1⟩

/-- C2 counterexample: `evaluate` on an `Empty` slot does not abort —
it silently returns with the slot unchanged and the computation never
invoked, for both cell flavors. -/
theorem evaluate_empty_silent_cx :
    ThunkCell.evaluate (ThunkCell.mk (ThunkEnum.Empty : ThunkEnum Nat))
      = (ThunkCell.mk ThunkEnum.Empty, 0) ∧
    ThunkMut.evaluate (ThunkMut.mk (ThunkEnum.Empty : ThunkEnum Nat))
      = (ThunkMut.mk ThunkEnum.Empty, 0) :=
  ⟨rfl, rfl⟩

/-- C2 amended: a bare `evaluate` on an `Empty` slot is a silent no-op;
the fatal never-silently-return behavior lives in the read paths — the
dereference of a shared-access cell (which a reentrant forcing hits)
and the consuming conversions — which fail with a fatal error. -/
theorem empty_read_fatal (T : Type) :
    ThunkCell.evaluate (ThunkCell.mk (ThunkEnum.Empty : ThunkEnum T))
      = (ThunkCell.mk ThunkEnum.Empty, 0) ∧
    ThunkMut.evaluate (ThunkMut.mk (ThunkEnum.Empty : ThunkEnum T))
      = (ThunkMut.mk ThunkEnum.Empty, 0) ∧
    ThunkCell.deref (ThunkCell.mk (ThunkEnum.Empty : ThunkEnum T))
      = Except.error "Deref on empty ThunkCell" ∧
    ThunkCell.deref_mut (ThunkCell.mk (ThunkEnum.Empty : ThunkEnum T))
      = Except.error "Deref on empty ThunkCell" ∧
    ThunkCell.into (ThunkCell.mk (ThunkEnum.Empty : ThunkEnum T))
      = Except.error "Unwrapped empty ThunkCell" ∧
    ThunkMut.into (ThunkMut.mk (ThunkEnum.Empty : ThunkEnum T))
      = Except.error "Unwrapped empty ThunkMut" :=
  ⟨rfl, rfl, rfl, rfl, rfl, rfl⟩

/-- C3: construction is evaluation-free — `new f` yields a `Pending f`
slot with `f` stored uninvoked, and `value v` yields a `Done v` slot
whose reads return `v` with zero computation invocations. -/
theorem construction_evaluation_free (T : Type) (f : Unit → T) (v : T) :
    (ThunkCell.new f).inner = ThunkEnum.Function f ∧
    (ThunkMut.new f).inner = ThunkEnum.Function f ∧
    (ThunkCell.value v).inner = ThunkEnum.Value v ∧
    (ThunkMut.value v).inner = ThunkEnum.Value v ∧
    ThunkCell.deref (ThunkCell.value v)
      = Except.ok (ThunkCell.value v, v, 0) ∧
    ThunkCell.into (ThunkCell.value v) = Except.ok (v, 0) ∧
    ThunkMut.into (ThunkMut.value v) = Except.ok (v, 0) :=
  ⟨rfl, rfl, rfl, rfl, rfl, rfl, rfl⟩

/-- C4: `promote` fails exactly on `Empty`, and a successful promotion
stores the given slot verbatim, for both cell flavors. -/
theorem promote_empty_rejection (T : Type) (s : ThunkEnum T) :
    (ThunkCell.promote s = none ↔ s = ThunkEnum.Empty) ∧
    (ThunkMut.promote s = none ↔ s = ThunkEnum.Empty) ∧
    (∀ c : ThunkCell T, ThunkCell.promote s = some c → c.inner = s) ∧
    (∀ m : ThunkMut T, ThunkMut.promote s = some m → m.inner = s) := by
  cases s <;> simp [ThunkCell.promote, ThunkMut.promote]

/-- Witness for C4 at concrete slots. -/
theorem promote_empty_rejection_w :
    ThunkCell.promote (ThunkEnum.Empty : ThunkEnum Nat) = none ∧
    (ThunkMut.promote (ThunkEnum.Value (5 : Nat))).isSome = true :=
  ⟨(promote_empty_rejection Nat (ThunkEnum.Empty : ThunkEnum Nat)).1.mpr rfl,
    rfl⟩

/-- C5: the conversions move the slot verbatim without evaluation, and
both round trips restore the original cell exactly. -/
theorem conversion_round_trip (T : Type) (c : ThunkCell T) (m : ThunkMut T) :
    (ThunkMut.from_cell c).inner = c.inner ∧
    (ThunkCell.from_mut m).inner = m.inner ∧
    ThunkCell.from_mut (ThunkMut.from_cell c) = c ∧
    ThunkMut.from_cell (ThunkCell.from_mut m) = m :=
  ⟨rfl, rfl, rfl, rfl⟩

/-- The slot state machine as the specification phrases it, written for
the equivalence claim C6 and compared against both evaluate flavors:
`Pending(f)` becomes `Done(f())`, `Done(v)` stays, `Empty` stays. -/
def specSlotForce {T : Type} : ThunkEnum T → ThunkEnum T
  | ThunkEnum.Function f => ThunkEnum.Value (f ())
  | s => s

/-- C6: on every slot state the two evaluate flavors induce the same
slot transformation (the spec's state machine), invoke the computation
the same number of times, and commute with the flavor conversions. -/
theorem evaluate_flavors_equivalent (T : Type) (s : ThunkEnum T) :
    ((ThunkCell.mk s).evaluate).fst.inner = specSlotForce s ∧
    ((ThunkMut.mk s).evaluate).fst.inner = specSlotForce s ∧
    ((ThunkCell.mk s).evaluate).snd = ((ThunkMut.mk s).evaluate).snd ∧
    ThunkMut.from_cell ((ThunkCell.mk s).evaluate).fst
      = ((ThunkMut.from_cell (ThunkCell.mk s)).evaluate).fst ∧
    ThunkCell.from_mut ((ThunkMut.mk s).evaluate).fst
      = ((ThunkCell.from_mut (ThunkMut.mk s)).evaluate).fst := by
  cases s <;>
    simp [ThunkCell.evaluate, ThunkMut.evaluate, specSlotForce,
      ThunkMut.from_cell, ThunkCell.from_mut]

/-- A single cell operation keeps a non-`Empty` slot non-`Empty`. -/
theorem applyCellOp_ne_empty {T : Type} (s : ThunkEnum T)
    (h : s ≠ ThunkEnum.Empty) (op : CellOp) :
    applyCellOp s op ≠ ThunkEnum.Empty := by
  cases s with
  | Empty => exact absurd rfl h
  | Function f =>
      cases op <;>
        simp [applyCellOp, ThunkCell.evaluate, ThunkMut.evaluate,
          ThunkCell.deref, ThunkCell.deref_mut,
          ThunkMut.from_cell, ThunkCell.from_mut]
  | Value v =>
      cases op <;>
        simp [applyCellOp, ThunkCell.evaluate, ThunkMut.evaluate,
          ThunkCell.deref, ThunkCell.deref_mut,
          ThunkMut.from_cell, ThunkCell.from_mut]

/-- A whole trace of cell operations keeps a non-`Empty` slot
non-`Empty`. -/
theorem applyCellOps_ne_empty {T : Type} (s : ThunkEnum T)
    (h : s ≠ ThunkEnum.Empty) (ops : List CellOp) :
    applyCellOps s ops ≠ ThunkEnum.Empty := by
  induction ops generalizing s with
  | nil => exact h
  | cons op ops ih => exact ih _ (applyCellOp_ne_empty s h op)

/-- Dereferencing a cell whose slot is not `Empty` never hits the
fatal branch. -/
theorem deref_ok_of_ne_empty {T : Type} (s : ThunkEnum T)
    (h : s ≠ ThunkEnum.Empty) :
    exceptOk ((ThunkCell.mk s).deref) = true ∧
    exceptOk ((ThunkCell.mk s).deref_mut) = true := by
  cases s with
  | Empty => exact absurd rfl h
  | Function f => exact ⟨rfl, rfl⟩
  | Value v => exact ⟨rfl, rfl⟩

/-- C7: every construction yields a non-`Empty` slot, no sequence of
evaluations, dereferences, or flavor conversions can leave the slot
`Empty`, and on any slot so reached the fatal dereference branch is
unreachable. -/
theorem slot_never_empty (T : Type) (f : Unit → T) (v : T)
    (s0 s1 : ThunkEnum T) (h : s0 ≠ ThunkEnum.Empty) (ops : List CellOp) :
    (ThunkCell.new f).inner ≠ ThunkEnum.Empty ∧
    (ThunkCell.value v).inner ≠ ThunkEnum.Empty ∧
    (ThunkMut.new f).inner ≠ ThunkEnum.Empty ∧
    (ThunkMut.value v).inner ≠ ThunkEnum.Empty ∧
    (∀ c : ThunkCell T, ThunkCell.promote s1 = some c →
      c.inner ≠ ThunkEnum.Empty) ∧
    (∀ m : ThunkMut T, ThunkMut.promote s1 = some m →
      m.inner ≠ ThunkEnum.Empty) ∧
    applyCellOps s0 ops ≠ ThunkEnum.Empty ∧
    exceptOk ((ThunkCell.mk (applyCellOps s0 ops)).deref) = true ∧
    exceptOk ((ThunkCell.mk (applyCellOps s0 ops)).deref_mut) = true := by
  have hops := applyCellOps_ne_empty s0 h ops
  have hderef := deref_ok_of_ne_empty (applyCellOps s0 ops) hops
  refine ⟨by simp [ThunkCell.new], by simp [ThunkCell.value],
    by simp [ThunkMut.new], by simp [ThunkMut.value],
    ?_, ?_, hops, hderef.1, hderef.2⟩ <;>
    cases s1 <;> simp [ThunkCell.promote, ThunkMut.promote]

/-- Witness for C7 on a concrete slot and operation trace. -/
theorem slot_never_empty_w :
    (ThunkEnum.Function (fun _ => (7 : Nat)) ≠ ThunkEnum.Empty) ∧
    applyCellOps (ThunkEnum.Function (fun _ => (7 : Nat)))
        [CellOp.evalCell, CellOp.toMut, CellOp.evalMut,
          CellOp.toCell, CellOp.derefCell]
      ≠ ThunkEnum.Empty := by
  have h : ThunkEnum.Function (fun _ => (7 : Nat)) ≠ ThunkEnum.Empty := by
    intro hc
    exact ThunkEnum.noConfusion hc
  exact ⟨h,
    (slot_never_empty Nat (fun _ => 7) 7 (ThunkEnum.Function (fun _ => 7))
        ThunkEnum.Empty h
        [CellOp.evalCell, CellOp.toMut, CellOp.evalMut,
          CellOp.toCell, CellOp.derefCell]).2.2.2.2.2.2.1⟩

/-- C8: `retrieve` hands back exactly the stored pair with the callback
uninvoked, `into_result` invokes the callback exactly once returning
`f v`, and either call leaves the consumed object with its pair gone. -/
theorem finalizer_explicit_consumption (T R : Type) (v : T) (f : T → R) :
    BackDoor.retrieve (BackDoor.new v f)
      = Except.ok ((v, f), BackDoor.mk none, 0) ∧
    BackDoor.into_result (BackDoor.new v f)
      = Except.ok (f v, BackDoor.mk none, 1) :=
  ⟨rfl, rfl⟩

/-- Reads leave a finalizer's state untouched. -/
theorem backDoor_applyOps_reads {T R : Type} (b : BackDoor T R) (n : Nat) :
    BackDoor.applyOps b (List.replicate n BDOp.readOp) = b := by
  induction n with
  | zero => rfl
  | succ n ih =>
      simp [List.replicate_succ, BackDoor.applyOps, BackDoor.applyOp, ih]

/-- C9: over a finalizer's lifetime the callback never fires twice —
reads change nothing; with no explicit consumption the end-of-life drop
invokes `f` on the wrapped value exactly once; after `retrieve` or
`into_result` the object's pair is gone and the drop invokes nothing. -/
theorem finalizer_no_double_fire (T R : Type) (v : T) (f : T → R) (n : Nat) :
    BackDoor.applyOps (BackDoor.new v f) (List.replicate n BDOp.readOp)
      = BackDoor.new v f ∧
    BackDoor.drop (BackDoor.new v f) = (some (f v), BackDoor.mk none, 1) ∧
    BackDoor.retrieve (BackDoor.new v f)
      = Except.ok ((v, f), BackDoor.mk none, 0) ∧
    BackDoor.into_result (BackDoor.new v f)
      = Except.ok (f v, BackDoor.mk none, 1) ∧
    BackDoor.drop (BackDoor.mk (none : Option (BackDoorBase T R)))
      = (none, BackDoor.mk none, 0) :=
  ⟨backDoor_applyOps_reads (BackDoor.new v f) n, rfl, rfl, rfl, rfl⟩

/-- Any sequence of non-consuming accesses keeps the pair present. -/
theorem backDoor_applyOps_isSome {T R : Type} (b : BackDoor T R)
    (h : b.inner.isSome = true) (ops : List (BDOp T)) :
    (BackDoor.applyOps b ops).inner.isSome = true := by
  induction ops generalizing b with
  | nil => exact h
  | cons op ops ih =>
      refine ih _ ?_
      cases op with
      | readOp => exact h
      | writeOp w =>
          obtain ⟨base, hb⟩ := Option.isSome_iff_exists.mp h
          simp [BackDoor.applyOp, BackDoor.deref_mut, bd_expect, hb]

/-- When the pair is present, no public finalizer operation hits the
`bd_expect` error branch. -/
theorem backDoor_ops_ok {T R : Type} (b : BackDoor T R) (w : T)
    (h : b.inner.isSome = true) :
    exceptOk b.deref = true ∧
    exceptOk (b.deref_mut w) = true ∧
    exceptOk b.retrieve = true ∧
    exceptOk b.into_result = true := by
  obtain ⟨base, hb⟩ := Option.isSome_iff_exists.mp h
  simp [BackDoor.deref, BackDoor.deref_mut, BackDoor.retrieve,
    BackDoor.into_result, bd_expect, hb, exceptOk]

/-- C10: the `bd_expect` error branch is unreachable through the public
interface — from `new`, after any sequence of reads and writes, the
pair is still present and every access returns successfully. -/
theorem bd_expect_unreachable (T R : Type) (v w : T) (f : T → R)
    (ops : List (BDOp T)) :
    (BackDoor.applyOps (BackDoor.new v f) ops).inner.isSome = true ∧
    exceptOk ((BackDoor.applyOps (BackDoor.new v f) ops).deref) = true ∧
    exceptOk ((BackDoor.applyOps (BackDoor.new v f) ops).deref_mut w) = true ∧
    exceptOk ((BackDoor.applyOps (BackDoor.new v f) ops).retrieve) = true ∧
    exceptOk ((BackDoor.applyOps (BackDoor.new v f) ops).into_result) = true := by
  have hs : (BackDoor.applyOps (BackDoor.new v f) ops).inner.isSome = true :=
    backDoor_applyOps_isSome (BackDoor.new v f) rfl ops
  have hops := backDoor_ops_ok (BackDoor.applyOps (BackDoor.new v f) ops) w hs
  exact ⟨hs, hops.1, hops.2.1, hops.2.2.1, hops.2.2.2⟩
